import Mathlib

/-!
Verification development for the `learning_rank` note-taking service
(Go sources: `main.go` and `repo/user_repo.go`).

The Go code is shallowly embedded: the backing relational store is a list
of rows, a cancellable `context.Context` is a `Ctx` value that is either
the background/TODO context (never cancelled) or a caller context with a
cancellation flag, and `pgxpool` query calls are modelled by
`queryRowScan`, which aborts with a `cancelled` error when the context
handed to it is cancelled and otherwise scans the selected row.
-/

/-- A Go `context.Context` as far as cancellation is observable:
`background` stands for `context.Background()`/`context.TODO()` (never
cancelled), `caller b` for the inbound request context with cancellation
flag `b`. -/
inductive Ctx where
  | background
  | caller (cancelled : Bool)
deriving DecidableEq

def Ctx.isCancelled : Ctx → Bool
  | .background => false
  | .caller b => b

/-- Errors surfaced by the store layer: `cancelled` models a query aborted
by context cancellation, `noRows` models `pgx.ErrNoRows`. -/
inductive RepoErr where
  | cancelled
  | noRows
deriving DecidableEq

/-- `QueryRow(ctx, ...).Scan(...)`: aborts when `ctx` is cancelled,
otherwise yields the selected value or `noRows` when nothing matched. -/
def queryRowScan {α : Type} (ctx : Ctx) (res : Option α) : Except RepoErr α :=
  if ctx.isCancelled then .error .cancelled
  else
    match res with
    | some v => .ok v
    | none => .error .noRows

/-- The `User` struct of `repo/user_repo.go`. -/
structure User where
  ID : Nat
  Username : String
  AuthId : String
deriving DecidableEq

/-- Go's zero value `User{}`. -/
def User.zero : User := ⟨0, "", ""⟩

/-- A row of the `users` table. -/
structure UserRow where
  id : Nat
  username : String
  authId : String
deriving DecidableEq

/-- `UserRepo.Get` from `repo/user_repo.go`. The Go method takes `ctx`
but issues its query with `context.TODO()` (modelled as `Ctx.background`),
so the `ctx` argument is ignored. On error it returns the zero `User`;
on success it builds the `User` from the requested `id` and the scanned
columns. The Go return order `(error, User)` is kept as a pair. -/
def usersGet (ctx : Ctx) (db : List UserRow) (id : Nat) : Option RepoErr × User :=
  match queryRowScan Ctx.background (db.find? (fun r => r.id == id)) with
  | .error e => (some e, User.zero)
  | .ok r => (none, { ID := id, Username := r.username, AuthId := r.authId })

/-- `UserRepo.Exists` from `repo/user_repo.go`: `SELECT EXISTS(...)` with
the caller's `ctx`; the scanned boolean is whether some row has the given
`auth_id`. On query error the Go `exists` variable keeps its zero value
`false`. -/
def usersExists (ctx : Ctx) (db : List UserRow) (authId : String) : Option RepoErr × Bool :=
  match queryRowScan ctx (some (db.any (fun r => r.authId == authId))) with
  | .error e => (some e, false)
  | .ok b => (none, b)

/-- `UserRepo.Add` from `repo/user_repo.go`: a plain
`INSERT INTO users (username, auth_id) VALUES ($1, $2)` with the caller's
`ctx`; no uniqueness check, no upsert. The new row gets a fresh serial id. -/
def usersAdd (ctx : Ctx) (db : List UserRow) (username authId : String) :
    Option RepoErr × List UserRow :=
  if ctx.isCancelled then (some RepoErr.cancelled, db)
  else (none, db ++ [⟨db.length + 1, username, authId⟩])

/-- The check-then-insert protocol the spec prescribes for callers of the
principal store: call `Exists` first and only `Add` when it reports
`false`. -/
def registerIfAbsent (ctx : Ctx) (db : List UserRow) (username authId : String) :
    List UserRow :=
  if (usersExists ctx db authId).2 then db else (usersAdd ctx db username authId).2

/-- The principal-store invariant: at most one row per `auth_id`. -/
def uniqueAuthIds (db : List UserRow) : Prop :=
  (db.map (fun r => r.authId)).Nodup

instance (db : List UserRow) : Decidable (uniqueAuthIds db) := by
  unfold uniqueAuthIds
  infer_instance

/-! ## Session gate (`getUserFromSession`, `ensureAuthed` in `main.go`) -/

/-- A value stored in the gorilla session's `Values` map: either a string
(the only type the gate's `.(string)` assertion accepts) or anything else. -/
inductive SessVal where
  | str (s : String)
  | other
deriving DecidableEq

/-- The state of the inbound request's session cookie. -/
inductive Cookie where
  | absent
  | malformed
  | ok (values : List (String × SessVal))
deriving DecidableEq

/-- `Store.Get(r, "auth")`: gorilla's cookie store returns a fresh empty
session when the cookie is absent or fails to decode (the decode error is
only printed by the Go code and otherwise ignored), and the decoded
`Values` map otherwise. -/
def sessionValues : Cookie → List (String × SessVal)
  | .absent => []
  | .malformed => []
  | .ok values => values

/-- `sessionState.Values["user_id"].(string)`: the map lookup followed by
the dynamic type assertion. `none` corresponds to Go's `ok == false`. -/
def decodeUserId (c : Cookie) : Option String :=
  match (sessionValues c).lookup "user_id" with
  | some (SessVal.str s) => some s
  | _ => none

/-- `getUserFromSession` from `main.go`. `extGet` stands for the external
user repository's `Get(ctx, Auth0ID(userId))`; exactly as in the source,
its error is discarded (`user, _ := userRepo.Get(...)`) and the function
returns `true` whenever the session value decoded to a string. -/
def getUserFromSession (extGet : String → Option RepoErr × User) (c : Cookie) :
    User × Bool :=
  match decodeUserId c with
  | some uid => ((extGet uid).2, true)
  | none => (User.zero, false)

/-- An HTTP response as far as the claims observe it. -/
inductive Response where
  | redirect (location : String) (status : Nat)
  | httpError (message : String) (status : Nat)
  | html (tmpl : String)
deriving DecidableEq

def Response.isRedirect : Response → Bool
  | .redirect _ _ => true
  | _ => false

def Response.isHttpError : Response → Bool
  | .httpError _ _ => true
  | _ => false

/-- `ensureAuthed` from `main.go`: the middleware around every protected
route. `next` is the downstream handler, returning its response together
with the number of Note Store calls it performs. When the gate reports
`false` the code answers `http.Redirect(w, r, "/login",
http.StatusTemporaryRedirect)` and never invokes `next`. -/
def ensureAuthed (extGet : String → Option RepoErr × User)
    (next : Cookie → Response × Nat) (c : Cookie) : Response × Nat :=
  if (getUserFromSession extGet c).2 then next c
  else (Response.redirect "/login" 307, 0)

/-! ## Date parsing (`time.Parse(time.RFC3339, date+"T00:00:00+11:00")`)

`time.Parse` with the `time.RFC3339` layout is embedded as a character
parser for `YYYY-MM-DDThh:mm:ss` followed by `Z` or `±hh:mm`, with Go's
range checks (month 1–12, day within the month, hour ≤ 23, minute and
second ≤ 59) and no trailing input. Fractional seconds are not modelled:
no call site produces them. The result is the Unix timestamp (seconds),
which identifies the instant exactly as Go's `time.Time` does. -/

def digitVal (c : Char) : Option Nat :=
  if c.isDigit then some (c.toNat - 48) else none

def read2 : List Char → Option (Nat × List Char)
  | c1 :: c2 :: rest =>
    match digitVal c1, digitVal c2 with
    | some a, some b => some (10 * a + b, rest)
    | _, _ => none
  | _ => none

def read4 : List Char → Option (Nat × List Char)
  | c1 :: c2 :: c3 :: c4 :: rest =>
    match digitVal c1, digitVal c2, digitVal c3, digitVal c4 with
    | some a, some b, some c, some d => some (1000 * a + 100 * b + 10 * c + d, rest)
    | _, _, _, _ => none
  | _ => none

def expectCh (c : Char) : List Char → Option (List Char)
  | x :: rest => if x = c then some rest else none
  | _ => none

/-- Leap year in the proleptic Gregorian calendar, as Go's `isLeap`. -/
def isLeap (y : Nat) : Bool :=
  (y % 4 == 0 && y % 100 != 0) || y % 400 == 0

def daysInMonth (y : Nat) (m : Nat) : Nat :=
  match m with
  | 1 => 31 | 3 => 31 | 5 => 31 | 7 => 31 | 8 => 31 | 10 => 31 | 12 => 31
  | 4 => 30 | 6 => 30 | 9 => 30 | 11 => 30
  | 2 => if isLeap y then 29 else 28
  | _ => 0

/-- Days in the year strictly before month `m`. -/
def daysBeforeMonth (m : Nat) (leap : Bool) : Nat :=
  let base :=
    match m with
    | 1 => 0 | 2 => 31 | 3 => 59 | 4 => 90 | 5 => 120 | 6 => 151
    | 7 => 181 | 8 => 212 | 9 => 243 | 10 => 273 | 11 => 304 | _ => 334
  if leap && decide (3 ≤ m) then base + 1 else base

/-- Days from 0000-01-01 to `y`-`m`-`d` (proleptic Gregorian). -/
def daysFromYear0 (y m d : Nat) : Nat :=
  365 * y + (y + 3) / 4 - (y + 99) / 100 + (y + 399) / 400
    + daysBeforeMonth m (isLeap y) + (d - 1)

/-- Days from the Unix epoch 1970-01-01 to `y`-`m`-`d`
(`daysFromYear0 1970 1 1 = 719528`). -/
def dateToEpochDays (y m d : Nat) : Int :=
  (daysFromYear0 y m d : Int) - 719528

/-- The timezone offset suffix of RFC3339: `Z` or `±hh:mm`, returned in
seconds east of UTC; the input must end with it. -/
def parseOffset : List Char → Option Int
  | ['Z'] => some 0
  | '+' :: rest =>
    (read2 rest).bind fun (oh, l1) =>
    (expectCh ':' l1).bind fun l2 =>
    (read2 l2).bind fun (om, l3) =>
    if l3 = [] ∧ oh ≤ 23 ∧ om ≤ 59 then some ((oh : Int) * 3600 + om * 60) else none
  | '-' :: rest =>
    (read2 rest).bind fun (oh, l1) =>
    (expectCh ':' l1).bind fun l2 =>
    (read2 l2).bind fun (om, l3) =>
    if l3 = [] ∧ oh ≤ 23 ∧ om ≤ 59 then some (-((oh : Int) * 3600 + om * 60)) else none
  | _ => none

def parseRFC3339Chars (l : List Char) : Option Int :=
  (read4 l).bind fun (y, l1) =>
  (expectCh '-' l1).bind fun l2 =>
  (read2 l2).bind fun (mo, l3) =>
  (expectCh '-' l3).bind fun l4 =>
  (read2 l4).bind fun (dy, l5) =>
  (expectCh 'T' l5).bind fun l6 =>
  (read2 l6).bind fun (hh, l7) =>
  (expectCh ':' l7).bind fun l8 =>
  (read2 l8).bind fun (mi, l9) =>
  (expectCh ':' l9).bind fun l10 =>
  (read2 l10).bind fun (ss, l11) =>
  (parseOffset l11).bind fun off =>
  if 1 ≤ mo ∧ mo ≤ 12 ∧ 1 ≤ dy ∧ dy ≤ daysInMonth y mo ∧ hh ≤ 23 ∧ mi ≤ 59 ∧ ss ≤ 59 then
    some (dateToEpochDays y mo dy * 86400 + ((hh : Int) * 3600 + mi * 60 + ss) - off)
  else none

def parseRFC3339 (s : String) : Option Int :=
  parseRFC3339Chars s.data

/-! ## Dispatch surface handlers (`main.go`)

The Note Store (`repo.NoteRepo`, not among the provided sources) is passed
to each handler as an opaque function returning the typed error of the Go
call; handlers also return the trace of store calls they make, so that
"zero store calls" and "exactly this argument" are observable. -/

/-- An error returned by a Note Store operation. -/
inductive StoreErr where
  | failure
deriving DecidableEq

/-- `HomeSinceHandler`: reads `{date}` from the path, parses
`date+"T00:00:00+11:00"` as RFC3339, and on failure answers through
`handleUnexpectedError` (`http.Error(w, "There was an unexpected error",
http.StatusInternalServerError)`) without touching the store; on success
it calls `noteRepo.GetAllSince` with the parsed time and renders `home`
(or answers the same error response if the store fails). The second
component is the list of timestamps passed to `GetAllSince`. -/
def homeSinceHandler {α : Type} (getAllSince : Int → Option StoreErr × α)
    (date : String) : Response × List Int :=
  match parseRFC3339 (date ++ "T00:00:00+11:00") with
  | none => (Response.httpError "There was an unexpected error" 500, [])
  | some t =>
    match getAllSince t with
    | (some _, _) => (Response.httpError "There was an unexpected error" 500, [t])
    | (none, _) => (Response.html "home", [t])

/-- `AddNoteHandler`: reads `body` and `tags` form values, calls
`noteRepo.Add`, and on success redirects to `/` with
`http.StatusSeeOther`. -/
def addNoteHandler (add : String → String → Option StoreErr)
    (body tags : String) : Response :=
  match add body tags with
  | some _ => Response.httpError "There was an unexpected error" 500
  | none => Response.redirect "/" 303

/-- `ToggleNoteHandler`: reads the `id` form value, calls
`noteRepo.ToggleDone`, and on success redirects to `/#id` with
`http.StatusSeeOther`. -/
def toggleNoteHandler (toggle : String → Option StoreErr) (id : String) : Response :=
  match toggle id with
  | some _ => Response.httpError "There was an unexpected error" 500
  | none => Response.redirect ("/#" ++ id) 303

/-- `DeleteNoteHandler`: reads `{id}` from the path, calls
`noteRepo.Delete`, and on success redirects to `/` with
`http.StatusSeeOther`. The second component is the trace of ids passed to
`Delete`. -/
def deleteNoteHandler (del : String → Option StoreErr) (id : String) :
    Response × List String :=
  match del id with
  | some _ => (Response.httpError "There was an unexpected error" 500, [id])
  | none => (Response.redirect "/" 303, [id])

/-- Split a character list at every slash (the behaviour of splitting a
path string on the separator `/`). -/
def splitChars : List Char → List String
  | [] => [""]
  | c :: rest =>
    match splitChars rest with
    | [] => []
    | s :: ss => if c = '/' then "" :: s :: ss else ⟨c :: s.data⟩ :: ss

/-- The route pattern of the delete handler in `main.go`, registered as
`/note/` + an `id` path variable constrained to the regular expression
`[0-9]+` + `/delete`. gorilla/mux matches the pattern against the full
path and binds `id` to the middle segment only when every character of the
segment is a decimal digit and there is at least one. -/
def matchDeleteRoute (path : String) : Option String :=
  match splitChars path.data with
  | ["", "note", id, "delete"] =>
    if 1 ≤ id.length && id.data.all Char.isDigit then some id else none
  | _ => none

/-! ## Formatted dates, for stating the boundary-semantics claim -/

/-- The decimal digit character for `k ≤ 9`. -/
def digitCh (k : Nat) : Char := Char.ofNat (48 + k)

def pad2 (n : Nat) : List Char := [digitCh (n / 10), digitCh (n % 10)]

def pad4 (n : Nat) : List Char :=
  [digitCh (n / 1000), digitCh (n / 100 % 10), digitCh (n / 10 % 10), digitCh (n % 10)]

/-- The canonical `YYYY-MM-DD` rendering of a date, the shape of the
`{date}` path value the route is built for. -/
def fmtDate (y m d : Nat) : String :=
  ⟨pad4 y ++ '-' :: pad2 m ++ '-' :: pad2 d⟩

/-- Midnight (00:00:00) of the calendar date `y`-`m`-`d` at the fixed
UTC+11:00 offset, as a Unix timestamp: the instant the claim says the
`{date}` path value denotes. -/
def midnightPlus11 (y m d : Nat) : Int :=
  dateToEpochDays y m d * 86400 - 39600

/-- A date whose components are in the ranges Go's parser accepts. -/
def validYMD (y m d : Nat) : Prop :=
  y ≤ 9999 ∧ 1 ≤ m ∧ m ≤ 12 ∧ 1 ≤ d ∧ d ≤ daysInMonth y m

instance (y m d : Nat) : Decidable (validYMD y m d) := by
  unfold validYMD
  infer_instance

/-! ## Parser/printer lemmas -/

theorem strDataAppend (a b : String) : (a ++ b).data = a.data ++ b.data := rfl

theorem obind {α β : Type} (a : α) (f : α → Option β) : (Option.some a).bind f = f a := rfl

theorem digitVal_digitCh : ∀ k, k < 10 → digitVal (digitCh k) = some k := by decide

theorem expectCh_cons (c : Char) (r : List Char) : expectCh c (c :: r) = some r := by
  simp [expectCh]

theorem read2_pad2 (n : Nat) (hn : n < 100) :
    ∀ r, read2 (pad2 n ++ r) = some (n, r) := by
  intro r
  have h1 := digitVal_digitCh (n / 10) (by omega)
  have h2 := digitVal_digitCh (n % 10) (by omega)
  simp [pad2, read2, h1, h2]
  omega

theorem read4_pad4 (n : Nat) (hn : n < 10000) :
    ∀ r, read4 (pad4 n ++ r) = some (n, r) := by
  intro r
  have h1 := digitVal_digitCh (n / 1000) (by omega)
  have h2 := digitVal_digitCh (n / 100 % 10) (by omega)
  have h3 := digitVal_digitCh (n / 10 % 10) (by omega)
  have h4 := digitVal_digitCh (n % 10) (by omega)
  simp [pad4, read4, h1, h2, h3, h4]
  omega

theorem read2_00 (r : List Char) : read2 ('0' :: '0' :: r) = some (0, r) := rfl

theorem parseOffset_p11 : parseOffset ['+', '1', '1', ':', '0', '0'] = some 39600 := rfl

theorem daysInMonth_le (y m : Nat) : daysInMonth y m ≤ 31 := by
  unfold daysInMonth
  split
  any_goals omega
  split <;> omega

/-- Round trip: the canonical rendering of a valid date, concatenated with
the fixed suffix the handler appends, parses to midnight of that date at
UTC+11:00. -/
theorem parse_fmt (y m d : Nat) (hv : validYMD y m d) :
    parseRFC3339 (fmtDate y m d ++ "T00:00:00+11:00") = some (midnightPlus11 y m d) := by
  obtain ⟨hy, hm1, hm2, hd1, hd2⟩ := hv
  have hd100 : d < 100 := by
    have := daysInMonth_le y m
    omega
  have e : (fmtDate y m d ++ "T00:00:00+11:00").data
      = pad4 y ++ '-' :: (pad2 m ++ '-' :: (pad2 d ++
        ['T', '0', '0', ':', '0', '0', ':', '0', '0', '+', '1', '1', ':', '0', '0'])) := by
    rw [strDataAppend]
    show (pad4 y ++ '-' :: pad2 m ++ '-' :: pad2 d) ++ _ = _
    simp [List.append_assoc]
  unfold parseRFC3339
  rw [e]
  unfold parseRFC3339Chars
  simp only [read4_pad4 y (by omega), obind, expectCh_cons,
    read2_pad2 m (by omega), read2_pad2 d (by omega), read2_00, parseOffset_p11]
  rw [if_pos ⟨hm1, hm2, hd1, hd2, by omega, by omega, by omega⟩]
  unfold midnightPlus11
  norm_num

/-! ## Claims -/

/-- Claim C1: for every request to a protected route whose session does
not resolve to an authenticated principal, `ensureAuthed` answers a
redirect to the login route (`/login`, status 307) and the downstream
handler — hence every Note Store operation — is never invoked: zero store
calls. -/
theorem c1_unauth_redirect_no_store_calls
    (extGet : String → Option RepoErr × User) (next : Cookie → Response × Nat)
    (c : Cookie) (h : (getUserFromSession extGet c).2 = false) :
    ensureAuthed extGet next c = (Response.redirect "/login" 307, 0) := by
  unfold ensureAuthed
  rw [h]
  simp

theorem c1_witness :
    (getUserFromSession (fun _ => (none, User.zero)) Cookie.absent).2 = false ∧
    ensureAuthed (fun _ => (none, User.zero)) (fun _ => (Response.html "home", 1))
        Cookie.absent = (Response.redirect "/login" 307, 0) :=
  ⟨rfl, c1_unauth_redirect_no_store_calls (fun _ => (none, User.zero))
    (fun _ => (Response.html "home", 1)) Cookie.absent rfl⟩

/-- Claim C2, counterexample: a session whose cookie decodes to the
principal identifier `"42"` while the principal store has no such
principal (`extGet` answers `pgx.ErrNoRows` and the zero `User`). The gate
still reports authenticated (`true`) and `ensureAuthed` runs the
downstream handler instead of redirecting to login: the discarded error in
`user, _ := userRepo.Get(...)` makes the gate proceed, contradicting the
claim. -/
theorem c2_counterexample :
    (getUserFromSession (fun _ => (some RepoErr.noRows, User.zero))
        (Cookie.ok [("user_id", SessVal.str "42")])).2 = true ∧
    ensureAuthed (fun _ => (some RepoErr.noRows, User.zero))
        (fun _ => (Response.html "home", 1)) (Cookie.ok [("user_id", SessVal.str "42")])
      = (Response.html "home", 1) :=
  ⟨by decide, by decide⟩

/-- Claim C2, amended: if the session cookie decodes to a principal
identifier, the gate treats the request as authenticated and runs the
downstream handler regardless of whether the principal still exists in the
principal store (the lookup error is discarded); only a failed decode
yields the login redirect. -/
theorem c2_amended_decode_implies_proceed
    (extGet : String → Option RepoErr × User) (next : Cookie → Response × Nat)
    (c : Cookie) (uid : String) (h : decodeUserId c = some uid) :
    ensureAuthed extGet next c = next c := by
  unfold ensureAuthed getUserFromSession
  rw [h]
  simp

theorem c2_amended_witness :
    decodeUserId (Cookie.ok [("user_id", SessVal.str "7")]) = some "7" ∧
    ensureAuthed (fun _ => (some RepoErr.noRows, User.zero))
        (fun _ => (Response.html "home", 1)) (Cookie.ok [("user_id", SessVal.str "7")])
      = (Response.html "home", 1) :=
  ⟨by decide, c2_amended_decode_implies_proceed (fun _ => (some RepoErr.noRows, User.zero))
    (fun _ => (Response.html "home", 1)) (Cookie.ok [("user_id", SessVal.str "7")]) "7"
    (by decide)⟩

/-- Claim C3: whenever the session cookie is absent, malformed, or its
values do not decode to a principal identifier (`decodeUserId` yields
`none`, which covers `Cookie.absent`, `Cookie.malformed`, and any values
map without a string under `"user_id"`), the gate degrades to
unauthenticated: the request is still handled with the login redirect, and
the response is never an error response. -/
theorem c3_decode_failure_fails_safe
    (extGet : String → Option RepoErr × User) (next : Cookie → Response × Nat)
    (c : Cookie) (h : decodeUserId c = none) :
    ensureAuthed extGet next c = (Response.redirect "/login" 307, 0) ∧
    (ensureAuthed extGet next c).1.isHttpError = false := by
  unfold ensureAuthed getUserFromSession
  rw [h]
  exact ⟨rfl, rfl⟩

theorem c3_witness :
    decodeUserId Cookie.malformed = none ∧
    ensureAuthed (fun _ => (none, User.zero)) (fun _ => (Response.html "home", 1))
        Cookie.malformed = (Response.redirect "/login" 307, 0) :=
  ⟨rfl, (c3_decode_failure_fails_safe (fun _ => (none, User.zero))
    (fun _ => (Response.html "home", 1)) Cookie.malformed rfl).1⟩

/-- Claim C4: the claim says `Get`, `Exists`, and `Add` each query with
their `ctx` argument. The code contradicts it for `Get`: `UserRepo.Get`
issues its query with `context.TODO()`, so its result is the same whether
the caller's context is cancelled or not (the query is never aborted),
while `Exists` and `Add` do query with `ctx` and abort when it is
cancelled. The second conjunct evaluates the code at the failing input: a
cancelled request context still completes `Get`'s query successfully. -/
theorem c4_get_ignores_its_ctx :
    (∀ db id, usersGet (Ctx.caller true) db id = usersGet (Ctx.caller false) db id) ∧
    (usersGet (Ctx.caller true) [⟨5, "u", "a"⟩] 5).1 = none ∧
    (∀ db a, usersExists (Ctx.caller true) db a = (some RepoErr.cancelled, false)) ∧
    (∀ db u a, usersAdd (Ctx.caller true) db u a = (some RepoErr.cancelled, db)) :=
  ⟨fun _ _ => rfl, by decide, fun _ _ => rfl, fun _ _ _ => rfl⟩

/-- Claim C5: the at-most-one-row-per-`auth_id` invariant is preserved by
the prescribed check-then-insert protocol (`Exists` before `Add`), and
`Add` alone is a plain insert that does not enforce it: on a store that
satisfies the invariant and already holds `auth_id` `"a"`, a bare `Add`
with `"a"` breaks the invariant. -/
theorem c5_exists_before_add_keeps_unique :
    (∀ ctx db u a, uniqueAuthIds db → uniqueAuthIds (registerIfAbsent ctx db u a)) ∧
    uniqueAuthIds [⟨1, "x", "a"⟩] ∧
    ¬ uniqueAuthIds (usersAdd (Ctx.caller false) [⟨1, "x", "a"⟩] "y" "a").2 := by
  refine ⟨?_, by decide, by decide⟩
  intro ctx db u a h
  unfold registerIfAbsent
  cases hex : (usersExists ctx db a).2 with
  | true => simpa [hex] using h
  | false =>
    simp only [hex, Bool.false_eq_true, if_false]
    unfold usersAdd
    cases hc : ctx.isCancelled with
    | true => simpa [hc] using h
    | false =>
      simp only [hc, Bool.false_eq_true, if_false]
      have hany : db.any (fun r => r.authId == a) = false := by
        unfold usersExists queryRowScan at hex
        rw [hc] at hex
        simpa using hex
      have hmem : a ∉ db.map (fun r => r.authId) := by
        intro hmem
        rw [List.mem_map] at hmem
        obtain ⟨r, hr, he⟩ := hmem
        have : db.any (fun r => r.authId == a) = true :=
          List.any_eq_true.mpr ⟨r, hr, by simp [he]⟩
        rw [hany] at this
        exact Bool.false_ne_true this
      unfold uniqueAuthIds at h ⊢
      rw [List.map_append, List.nodup_append]
      exact ⟨h, by simp, by simpa [List.disjoint_singleton] using hmem⟩

theorem c5_witness :
    uniqueAuthIds [⟨1, "x", "a"⟩] ∧
    uniqueAuthIds (registerIfAbsent (Ctx.caller false) [⟨1, "x", "a"⟩] "y" "a") :=
  ⟨by decide, c5_exists_before_add_keeps_unique.1 (Ctx.caller false)
    [⟨1, "x", "a"⟩] "y" "a" (by decide)⟩

/-- Claim C10: whenever `UserRepo.Get` errs it returns the zero-valued
`User` alongside the error, and on success the returned `User` has its
`ID` field equal to the requested id. -/
theorem c10_get_zero_on_error_id_on_success (ctx : Ctx) (db : List UserRow) (id : Nat) :
    ((usersGet ctx db id).1.isSome = true → (usersGet ctx db id).2 = User.zero) ∧
    ((usersGet ctx db id).1 = none → (usersGet ctx db id).2.ID = id) := by
  unfold usersGet
  cases h : queryRowScan Ctx.background (db.find? (fun r => r.id == id)) <;> simp

theorem c10_witness :
    (usersGet Ctx.background ([] : List UserRow) 7).1.isSome = true ∧
    (usersGet Ctx.background ([] : List UserRow) 7).2 = User.zero ∧
    (usersGet Ctx.background [⟨7, "u", "x"⟩] 7).1 = none ∧
    (usersGet Ctx.background [⟨7, "u", "x"⟩] 7).2.ID = 7 :=
  ⟨by decide,
   (c10_get_zero_on_error_id_on_success Ctx.background [] 7).1 (by decide),
   by decide,
   (c10_get_zero_on_error_id_on_success Ctx.background [⟨7, "u", "x"⟩] 7).2 (by decide)⟩

/-- Claim C6: every route that mutates note state — create
(`AddNoteHandler`), toggle (`ToggleNoteHandler`), delete
(`DeleteNoteHandler`) — responds on success of its store operation with a
redirect acknowledgement, never a rendered payload. -/
theorem c6_mutating_routes_redirect
    (add : String → String → Option StoreErr) (toggle del : String → Option StoreErr)
    (body tags tid did : String)
    (hadd : add body tags = none) (htog : toggle tid = none) (hdel : del did = none) :
    (addNoteHandler add body tags).isRedirect = true ∧
    (toggleNoteHandler toggle tid).isRedirect = true ∧
    ((deleteNoteHandler del did).1).isRedirect = true := by
  unfold addNoteHandler toggleNoteHandler deleteNoteHandler
  rw [hadd, htog, hdel]
  exact ⟨rfl, rfl, rfl⟩

theorem c6_witness :
    (addNoteHandler (fun _ _ => none) "b" "t").isRedirect = true ∧
    (toggleNoteHandler (fun _ => none) "1").isRedirect = true ∧
    ((deleteNoteHandler (fun _ => none) "2").1).isRedirect = true :=
  c6_mutating_routes_redirect (fun _ _ => none) (fun _ => none) (fun _ => none)
    "b" "t" "1" "2" rfl rfl rfl

/-- Claim C7: when the `{date}` path value of `HomeSinceHandler` fails to
parse, the handler reports the failure to the caller as an error response
(`http.Error` with the generic message and status 500), aborts the
request, and performs zero Note Store operations — in particular no
partial write. -/
theorem c7_bad_date_aborts_before_store {α : Type} (g : Int → Option StoreErr × α)
    (date : String) (h : parseRFC3339 (date ++ "T00:00:00+11:00") = none) :
    homeSinceHandler g date = (Response.httpError "There was an unexpected error" 500, []) := by
  unfold homeSinceHandler
  rw [h]

theorem c7_witness :
    parseRFC3339 ("oops" ++ "T00:00:00+11:00") = none ∧
    homeSinceHandler (fun _ => ((none : Option StoreErr), ())) "oops"
      = (Response.httpError "There was an unexpected error" 500, []) :=
  ⟨rfl, c7_bad_date_aborts_before_store (fun _ => ((none : Option StoreErr), ())) "oops" rfl⟩

/-- Claim C8: for every valid calendar date, `HomeSinceHandler` on the
`{date}` path value interprets it as midnight (00:00:00) of that date at
the fixed UTC+11:00 offset and passes exactly that instant — and nothing
else — to `GetAllSince`. -/
theorem c8_since_is_midnight_plus11 {α : Type} (g : Int → Option StoreErr × α)
    (y m d : Nat) (h : validYMD y m d) :
    (homeSinceHandler g (fmtDate y m d)).2 = [midnightPlus11 y m d] := by
  unfold homeSinceHandler
  simp only [parse_fmt y m d h]
  rcases g (midnightPlus11 y m d) with ⟨e, notes⟩
  cases e <;> rfl

theorem c8_witness :
    validYMD 2024 2 29 ∧
    (homeSinceHandler (fun _ => ((none : Option StoreErr), ())) (fmtDate 2024 2 29)).2
      = [midnightPlus11 2024 2 29] :=
  ⟨by decide, c8_since_is_midnight_plus11 (fun _ => ((none : Option StoreErr), ()))
    2024 2 29 (by decide)⟩

/-- Claim C9: the delete route pattern only matches when the id path
segment consists of one or more decimal digits, and `DeleteNoteHandler`
passes exactly the matched segment to the store's `Delete`; hence `Delete`
is never invoked with a non-numeric id string from the public interface. -/
theorem c9_delete_ids_numeric (del : String → Option StoreErr) (path id : String)
    (h : matchDeleteRoute path = some id) :
    1 ≤ id.length ∧ id.data.all Char.isDigit = true ∧
    (deleteNoteHandler del id).2 = [id] := by
  unfold matchDeleteRoute at h
  split at h
  · rename_i id0 heq
    split at h
    · rename_i hcond
      injection h with h
      subst h
      simp only [Bool.and_eq_true, decide_eq_true_eq] at hcond
      refine ⟨hcond.1, hcond.2, ?_⟩
      unfold deleteNoteHandler
      split <;> rfl
    · exact absurd h (by simp)
  · exact absurd h (by simp)

theorem c9_witness :
    matchDeleteRoute "/note/42/delete" = some "42" ∧
    1 ≤ "42".length ∧ "42".data.all Char.isDigit = true ∧
    (deleteNoteHandler (fun _ => none) "42").2 = ["42"] :=
  ⟨by decide, c9_delete_ids_numeric (fun _ => none) "/note/42/delete" "42" (by decide)⟩
